import Mathlib

/-!
Verification of the crawling-project core engine against its specification.

Python strings are modelled as lists of characters; each definition below is a
direct translation of the function of the same name in the repository
(src/crawler/1c_fixed.py, src/crawler/2c.py, src/merge_trials.py,
src/jobs/daily_update_2c.py).
-/

namespace Crawl

/-- Whitespace characters recognised by the model: the ASCII subset handled by
Char.isWhitespace, covering the whitespace that appears in the crawled text
(Python str.strip and the regex class \s also cover these characters). -/
def isPySpace (c : Char) : Bool := c.isWhitespace

/-- Models Python str.strip: drop whitespace from both ends. -/
def pyStrip (s : List Char) : List Char :=
  ((s.dropWhile isPySpace).reverse.dropWhile isPySpace).reverse

/-- Does the pattern occur at the head of the list (Python startswith)? -/
def startsWithL : List Char → List Char → Bool
  | [], _ => true
  | _ :: _, [] => false
  | a :: pat, b :: s => a = b && startsWithL pat s

/-- Models the Python substring test: pat in s. -/
def occursIn (pat : List Char) : List Char → Bool
  | [] => startsWithL pat []
  | s@(_ :: rest) => startsWithL pat s || occursIn pat rest

/-- The fixed list of nine navigation/menu-dump phrases of
_looks_garbage_page (bad_keys in 1c_fixed.py and 2c.py). -/
def badKeys : List (List Char) :=
  [ "임상시험 정보".data, "식약처 승인 목록".data, "목록으로".data, "의약품 정보".data,
    "실시기관 정보".data, "대상자 선정기준".data, "대상자 제외기준".data,
    "연구설계 및 수행방법".data, "최초 사람대상 연구여부".data ]

/-- The processed text t of _looks_garbage_page:
text.replace(",", " ").strip(). -/
def garbageProcessed (text : List Char) : List Char :=
  pyStrip (text.map (fun c => if c = ',' then ' ' else c))

/-- hit = sum(1 for k in bad_keys if k in t) in _looks_garbage_page. -/
def garbageHits (text : List Char) : Nat :=
  (badKeys.filter (fun k => occursIn k (garbageProcessed text))).length

/-- _looks_garbage_page of 1c_fixed.py (line 114) and 2c.py (line 214):
true means the page is classified ABSENT, false means REAL. -/
def looksGarbagePage (text : List Char) : Bool :=
  if text.isEmpty then true
  else if 2 ≤ garbageHits text then true
  else if 300 < (garbageProcessed text).length then true
  else false

/-- Maximal whitespace runs become one space (the re.sub of _get_text_safe);
the flag records whether the previous character was part of a whitespace run. -/
def collapseWsAux : Bool → List Char → List Char
  | _, [] => []
  | prevSpace, c :: cs =>
    if isPySpace c then
      if prevSpace then collapseWsAux true cs
      else ' ' :: collapseWsAux true cs
    else c :: collapseWsAux false cs

/-- _get_text_safe of 1c_fixed.py (line 390) and 2c.py (line 295) applied to
the raw rendered text of an element: el.text.strip() followed by
re.sub applied to a whitespace-class pattern replacing each run by one space. -/
def getTextSafe (raw : List Char) : List Char :=
  collapseWsAux false (pyStrip raw)

/-- The prefix of the text before the first line break:
text.split of a newline taking the head. -/
def firstLineOf (text : List Char) : List Char :=
  text.takeWhile (fun c => c ≠ '\n')

/-- _find_first_text of 1c_fixed.py (line 397) and 2c.py (line 303).
A candidate is none when the selector raised NoSuchElementException, and
some raw with the raw element text otherwise. -/
def findFirstText : List (Option (List Char)) → List Char
  | [] => []
  | none :: rest => findFirstText rest
  | some raw :: rest =>
    let text := getTextSafe raw
    if text.isEmpty then findFirstText rest
    else if 500 < text.length && text.contains '\n' then
      let firstLine := pyStrip (firstLineOf text)
      if firstLine.isEmpty then text else firstLine
    else text

/-- One collected institution entry: the key index used in the output map
(실시기관{idx}) together with the three column values of the row. -/
structure InstEntry where
  idx : Nat
  name : List Char
  contact : Option (List Char)
  extra : Option (List Char)
deriving DecidableEq, Repr

/-- A table row as the raw texts of its td cells; a table is its row list
(the tbody tr / tr selection happens at the selector level); a container is
the list of tables found under it. -/
def InstRow : Type := List (List Char)

/-- The body of the row loop of _scan_tables (1c_fixed.py line 539, 2c.py
line 449): a row with no first-column text is skipped, otherwise it yields an
entry with Name, the optional second column and the pipe-joined nonempty
remaining columns. -/
def rowEntry (idx : Nat) (cols : List (List Char)) : Option InstEntry :=
  match cols with
  | [] => none
  | c0 :: rest =>
    let name := getTextSafe c0
    if name.isEmpty then none
    else
      let contact := match rest with
        | [] => none
        | c1 :: _ => some (getTextSafe c1)
      let extras := match rest with
        | [] => []
        | _ :: c2s => (c2s.map getTextSafe).filter (fun x => !x.isEmpty)
      some { idx := idx, name := name, contact := contact,
             extra := if extras.isEmpty then none else some (List.intercalate " | ".data extras) }

/-- The row loop of _scan_tables over one table; the Bool reports whether the
early return on idx > start_idx + max_rows - 1 fired (which exits the whole
_scan_tables call, not just this table). -/
def scanRowsAux (startIdx maxRows : Nat) : List (List (List Char)) → Nat → Nat × List InstEntry × Bool
  | [], idx => (idx, [], false)
  | r :: rs, idx =>
    match rowEntry idx r with
    | none => scanRowsAux startIdx maxRows rs idx
    | some e =>
      let idx1 := idx + 1
      if startIdx + maxRows - 1 < idx1 then (idx1, [e], true)
      else
        let rec1 := scanRowsAux startIdx maxRows rs idx1
        (rec1.1, e :: rec1.2.1, rec1.2.2)

/-- The table loop of _scan_tables: tables of one root are scanned in order
until the per-call cap fires. -/
def scanTablesAux (startIdx maxRows : Nat) : List (List (List (List Char))) → Nat → Nat × List InstEntry
  | [], idx => (idx, [])
  | t :: ts, idx =>
    let r1 := scanRowsAux startIdx maxRows t idx
    if r1.2.2 then (r1.1, r1.2.1)
    else
      let r2 := scanTablesAux startIdx maxRows ts r1.1
      (r2.1, r1.2.1 ++ r2.2)

/-- _scan_tables(root, start_idx) of _extract_institutions
(1c_fixed.py line 533, 2c.py line 443), with root given as its table list. -/
def scanTables (maxRows : Nat) (tables : List (List (List (List Char)))) (startIdx : Nat) :
    Nat × List InstEntry :=
  scanTablesAux startIdx maxRows tables startIdx

/-- The container loop of _extract_institutions: next_idx starts at 1 and the
loop returns once next_idx > max_rows. -/
def extractInstitutionsAux (maxRows : Nat) : List (List (List (List (List Char)))) → Nat → List InstEntry
  | [], _ => []
  | c :: cs, nextIdx =>
    let r := scanTables maxRows c nextIdx
    if maxRows < r.1 then r.2
    else r.2 ++ extractInstitutionsAux maxRows cs r.1

/-- _extract_institutions of 1c_fixed.py (line 524) and 2c.py (line 434),
restricted to the primary container loop shared by both files (1c_fixed.py
additionally runs a caption-matching backup scan with the same _scan_tables;
it is not needed by the claims below).  Containers are the elements found by
the candidate selectors, each given as its list of tables, each table as its
list of rows, each row as the raw texts of its td cells. -/
def extractInstitutions (containers : List (List (List (List (List Char))))) (maxRows : Nat) :
    List InstEntry :=
  extractInstitutionsAux maxRows containers 1

/-- Outcome of one probe of extract_detail_data at an identifier: found with an
extracted record, absent (extract_detail_data returned None), or an
externally raised interrupt / unexpected exception escaping the probe. -/
inductive Fetch (α : Type) where
  | found : α → Fetch α
  | absent : Fetch α
  | interrupted : Fetch α
deriving DecidableEq, Repr

/-- The loop state of crawl_years (1c_fixed.py line 202) for one year:
the current identifier, the counters of the loop, the captured records
(all_data) and a ghost log of the identifiers actually probed via
extract_detail_data (no entry is added when an identifier is skipped). -/
structure YState (α : Type) where
  sn : Nat
  consecutiveMissing : Nat
  success : Nat
  fail : Nat
  skip : Nat
  processedInYear : Nat
  allData : List α
  probes : List Nat
deriving DecidableEq, Repr

/-- Result of one iteration of the year loop: continue with the next state,
break out of the year on the consecutive-miss threshold, or propagate an
interrupt with the state as it stood. -/
inductive StepOut (α : Type) where
  | next : YState α → StepOut α
  | yearEnd : YState α → StepOut α
  | interrupt : YState α → StepOut α
deriving DecidableEq, Repr

/-- One iteration of the while loop of crawl_years (1c_fixed.py lines
245..302).  existing models the test str(sn) in existing_sns; refreshActive
models refresh_years and year in refresh_years for the fixed year of this
loop.  Driver recycling, backups, logging and sleeping have no effect on this
state and are omitted. -/
def yearStep (probe : Nat → Fetch α) (existing : Nat → Bool) (refreshActive : Bool)
    (threshold : Nat) (s : YState α) : StepOut α :=
  if !refreshActive && existing s.sn then
    .next { s with skip := s.skip + 1, sn := s.sn + 1 }
  else
    match probe s.sn with
    | .found a =>
      .next { s with
        allData := s.allData ++ [a],
        success := s.success + 1,
        processedInYear := s.processedInYear + 1,
        consecutiveMissing := 0,
        probes := s.probes ++ [s.sn],
        sn := s.sn + 1 }
    | .absent =>
      let s1 := { s with
        fail := s.fail + 1,
        processedInYear := s.processedInYear + 1,
        consecutiveMissing := s.consecutiveMissing + 1,
        probes := s.probes ++ [s.sn] }
      if threshold ≤ s1.consecutiveMissing then .yearEnd s1
      else .next { s1 with sn := s1.sn + 1 }
    | .interrupted => .interrupt s

/-- How the year loop ended: the threshold break, the guard
sn < end_sn_exclusive turning false, or an interrupt. -/
inductive YearExit where
  | thresholdStop : YearExit
  | rangeExhausted : YearExit
  | interrupted : YearExit
deriving DecidableEq, Repr

/-- The while loop of crawl_years for one year; the fuel is the number of
identifiers left below end_sn_exclusive, so fuel 0 is exactly the loop guard
sn < end_sn_exclusive turning false (sn rises by one per iteration). -/
def crawlYearAux (probe : Nat → Fetch α) (existing : Nat → Bool) (refreshActive : Bool)
    (threshold : Nat) : Nat → YState α → YState α × YearExit
  | 0, s => (s, .rangeExhausted)
  | fuel + 1, s =>
    match yearStep probe existing refreshActive threshold s with
    | .next s1 => crawlYearAux probe existing refreshActive threshold fuel s1
    | .yearEnd s1 => (s1, .thresholdStop)
    | .interrupt s1 => (s1, .interrupted)

/-- One year of crawl_years: start at year*100000 + 1 and iterate while the
identifier stays below (year+1)*100000, with all counters starting at 0. -/
def crawlYearLoop (probe : Nat → Fetch α) (existing : Nat → Bool) (refreshActive : Bool)
    (threshold year : Nat) : YState α × YearExit :=
  crawlYearAux probe existing refreshActive threshold
    ((year + 1) * 100000 - (year * 100000 + 1))
    { sn := year * 100000 + 1, consecutiveMissing := 0, success := 0, fail := 0,
      skip := 0, processedInYear := 0, allData := [], probes := [] }

/-- The loop state of crawl_incremental (2c.py line 477): collected rows,
the consecutive-miss counter and the current identifier. -/
structure IState (α : Type) where
  rows : List α
  misses : Nat
  sn : Nat
deriving DecidableEq, Repr

/-- How crawl_incremental ended: a normal break (limit reached or
max_consecutive_miss reached), a propagating interrupt, or fuel running out
(the Python loop is unbounded; enough fuel makes this case unreachable). -/
inductive IncExit where
  | normal : IncExit
  | interrupted : IncExit
  | fuelExhausted : IncExit
deriving DecidableEq, Repr

/-- The limit test of crawl_incremental:
limit is not None and len(rows) >= limit. -/
def limitReached (limit : Option Nat) (nrows : Nat) : Bool :=
  match limit with
  | some l => l ≤ nrows
  | none => false

/-- The while loop of crawl_incremental (2c.py lines 488..513). -/
def crawlIncAux (probe : Nat → Fetch α) (maxMiss : Nat) (limit : Option Nat) :
    Nat → IState α → IState α × IncExit
  | 0, s => (s, .fuelExhausted)
  | fuel + 1, s =>
    if limitReached limit s.rows.length then (s, .normal)
    else
      match probe s.sn with
      | .found a => crawlIncAux probe maxMiss limit fuel ⟨s.rows ++ [a], 0, s.sn + 1⟩
      | .absent =>
        let m := s.misses + 1
        if maxMiss ≤ m then ({ s with misses := m }, .normal)
        else crawlIncAux probe maxMiss limit fuel { s with misses := m, sn := s.sn + 1 }
      | .interrupted => (s, .interrupted)

/-- crawl_incremental(since_sn, limit) of 2c.py line 477: rows and misses
start empty and the first probed identifier is since_sn + 1. -/
def crawlIncremental (probe : Nat → Fetch α) (maxMiss : Nat) (limit : Option Nat)
    (sinceSn fuel : Nat) : IState α × IncExit :=
  crawlIncAux probe maxMiss limit fuel ⟨[], 0, sinceSn + 1⟩

/-- What one crawl session hands back and what reaches persistence. -/
structure SessionResult (α : Type) where
  returnedRows : List α
  flushed : List α
deriving DecidableEq, Repr

/-- The session wrapper of crawl_years (1c_fixed.py lines 314..329): both
KeyboardInterrupt and Exception are caught, and the finally block calls
save_final whenever all_data is nonempty, so the captured records are flushed
regardless of how the loop ended. -/
def fullBackfillSession (probe : Nat → Fetch α) (existing : Nat → Bool) (refreshActive : Bool)
    (threshold year : Nat) : SessionResult α :=
  let r := crawlYearLoop probe existing refreshActive threshold year
  { returnedRows := r.1.allData,
    flushed := if r.1.allData.isEmpty then [] else r.1.allData }

/-- The session wrapper of crawl_incremental plus main of 2c.py (lines
515..522 and 586..624): the finally block of crawl_incremental only quits the
driver, so when an interrupt or an unexpected exception escapes the loop the
local rows list is lost (the except clause of main catches Exception without
saving, and KeyboardInterrupt escapes main entirely); only a normal return
reaches save_to_csv. -/
def incrementalSession (probe : Nat → Fetch α) (maxMiss : Nat) (limit : Option Nat)
    (sinceSn fuel : Nat) : SessionResult α :=
  let r := crawlIncremental probe maxMiss limit sinceSn fuel
  match r.2 with
  | .normal => { returnedRows := r.1.rows, flushed := r.1.rows }
  | _ => { returnedRows := [], flushed := [] }

/-- One persisted row: the clncTestSn key in its string form together with the
rest of the row. -/
structure TrialRow (α : Type) where
  sn : List Char
  body : α
deriving DecidableEq, Repr

/-- Numeric reading of a clncTestSn string, as produced by
pd.to_numeric with errors coerce on the identifier strings the crawler writes
(digit strings; anything else coerces to NaN, modelled as none). -/
def parseSn (s : List Char) : Option Nat :=
  if ¬ s.isEmpty && s.all Char.isDigit then
    some (s.foldl (fun n c => n * 10 + (c.toNat - 48)) 0)
  else none

/-- The ascending comparison used to sort by the numeric key, with
non-numeric keys last (na_position last in save_final; merge_trials.py sorts
the same way). -/
def snLe (a b : TrialRow α) : Bool :=
  match parseSn a.sn, parseSn b.sn with
  | some x, some y => decide (x ≤ y)
  | some _, none => true
  | none, some _ => false
  | none, none => true

/-- drop_duplicates on clncTestSn with keep first: keep a row only when its
key has not been seen earlier in the list. -/
def dedupBySnAux (seen : List (List Char)) : List (TrialRow α) → List (TrialRow α)
  | [] => []
  | r :: rs =>
    if r.sn ∈ seen then dedupBySnAux seen rs
    else r :: dedupBySnAux (r.sn :: seen) rs

/-- drop_duplicates(subset=clncTestSn, keep=first) of save_final
(1c_fixed.py line 354) and merge_trials.py line 27. -/
def dedupBySn (rows : List (TrialRow α)) : List (TrialRow α) :=
  dedupBySnAux [] rows

/-- sort_values on the numeric key, ascending, non-numeric last. -/
def sortBySn (rows : List (TrialRow α)) : List (TrialRow α) :=
  rows.mergeSort snLe

/-- The merge of save_final (1c_fixed.py lines 347..357): concatenate the new
rows before the existing rows, drop duplicate keys keeping the first
occurrence, sort ascending by the numeric key.  merge_trials.py (lines 22..32)
performs the same concat, dedup and sort on its input files. -/
def saveFinalMerge (newRows oldRows : List (TrialRow α)) : List (TrialRow α) :=
  sortBySn (dedupBySn (newRows ++ oldRows))

/-- The new-row filter of main in daily_update_2c.py (lines 410..426): a row
is appended exactly when its key is nonempty and not among the existing keys
(the rows arrive with the key already stripped by map_csv_to_sheet_format). -/
def incNewRows (rows : List (TrialRow α)) (existingSns : List (List Char)) : List (TrialRow α) :=
  rows.filter (fun r => !r.sn.isEmpty && !(existingSns.contains r.sn))

/-- The incremental sheet update of main in daily_update_2c.py: existing rows
stay untouched and the filtered new rows are appended after them
(append_new_rows). -/
def incUpdate (existingRows rows : List (TrialRow α)) : List (TrialRow α) :=
  existingRows ++ incNewRows rows (existingRows.map (fun r => r.sn))

/-! Concrete inputs used by the claim theorems and witnesses below. -/

/-- A fetcher for which extract_detail_data returns None at every identifier. -/
def c1Probe : Nat → Fetch Unit := fun _ => Fetch.absent

/-- An empty existing dataset: no identifier is already present. -/
def noExisting : Nat → Bool := fun _ => false

/-- A fetcher returning a record exactly for 202500051..202500055. -/
def c2Probe : Nat → Fetch Nat := fun n =>
  if 202500051 ≤ n && n ≤ 202500055 then Fetch.found n else Fetch.absent

/-- A raw title-region text of length 600 with an embedded line break. -/
def c5raw : List Char := List.replicate 300 'a' ++ '\n' :: List.replicate 299 'b'

/-- One qualifying institution row: a single nonempty first column. -/
def c6row : List (List Char) := ["기관".data]

/-- A table with 29 qualifying rows. -/
def c6t29 : List (List (List Char)) := List.replicate 29 c6row

/-- A table with 35 qualifying rows. -/
def c6t35 : List (List (List Char)) := List.replicate 35 c6row

/-- A fetcher that finds a record at 202500051 and is then interrupted. -/
def c9Probe : Nat → Fetch Nat := fun n =>
  if n = 202500051 then Fetch.found n else Fetch.interrupted

/-- A fetcher that finds one record at 202000001 and then returns None. -/
def wFlushProbe : Nat → Fetch Nat := fun n =>
  if n = 202000001 then Fetch.found 7 else Fetch.absent

/-- Concrete session rows for the reconciler witnesses: key 202500001 appears
both freshly scraped (body 11) and persisted (body 99). -/
def c7new : List (TrialRow Nat) := [⟨"202500003".data, 10⟩, ⟨"202500001".data, 11⟩]

/-- Concrete persisted rows for the reconciler witnesses. -/
def c7old : List (TrialRow Nat) :=
  [⟨"202500001".data, 99⟩, ⟨"202500002".data, 98⟩, ⟨"x".data, 1⟩]

/-- A probe used by the skip-step witness. -/
def wSkipProbe : Nat → Fetch Nat := fun _ => Fetch.absent

/-- A second, different probe used by the skip-step witness. -/
def wSkipProbe2 : Nat → Fetch Nat := fun n => Fetch.found n

/-- A mid-crawl walker state used by the skip-step witness. -/
def wSkipState : YState Nat :=
  { sn := 202100005, consecutiveMissing := 3, success := 2, fail := 1,
    skip := 4, processedInYear := 6, allData := [9], probes := [202100001] }

/-! Helper lemmas about dedupBySnAux, the keep-first deduplication. -/

/-- Every row kept by the deduplication comes from the input list. -/
theorem mem_of_mem_dedupBySnAux {α : Type} {seen : List (List Char)}
    {l : List (TrialRow α)} {r : TrialRow α}
    (h : r ∈ dedupBySnAux seen l) : r ∈ l := by
  induction l generalizing seen with
  | nil => simp [dedupBySnAux] at h
  | cons a rs ih =>
    by_cases ha : a.sn ∈ seen
    · simp only [dedupBySnAux, if_pos ha] at h
      exact List.mem_cons_of_mem _ (ih h)
    · simp only [dedupBySnAux, if_neg ha, List.mem_cons] at h
      rcases h with h | h
      · exact h ▸ List.mem_cons_self _ _
      · exact List.mem_cons_of_mem _ (ih h)

/-- No kept row carries a key that was already seen. -/
theorem dedupBySnAux_sn_not_seen {α : Type} {seen : List (List Char)}
    {l : List (TrialRow α)} {r : TrialRow α}
    (h : r ∈ dedupBySnAux seen l) : r.sn ∉ seen := by
  induction l generalizing seen with
  | nil => simp [dedupBySnAux] at h
  | cons a rs ih =>
    by_cases ha : a.sn ∈ seen
    · simp only [dedupBySnAux, if_pos ha] at h
      exact ih h
    · simp only [dedupBySnAux, if_neg ha, List.mem_cons] at h
      rcases h with h | h
      · exact h ▸ ha
      · intro hr
        exact (ih h) (List.mem_cons_of_mem _ hr)

/-- The kept rows carry pairwise distinct keys. -/
theorem dedupBySnAux_pairwise_ne {α : Type} (seen : List (List Char))
    (l : List (TrialRow α)) :
    (dedupBySnAux seen l).Pairwise (fun a b => a.sn ≠ b.sn) := by
  induction l generalizing seen with
  | nil => simp [dedupBySnAux]
  | cons a rs ih =>
    by_cases ha : a.sn ∈ seen
    · simp only [dedupBySnAux, if_pos ha]
      exact ih seen
    · simp only [dedupBySnAux, if_neg ha]
      refine List.Pairwise.cons ?_ (ih (a.sn :: seen))
      intro b hb hab
      exact (dedupBySnAux_sn_not_seen hb) (by rw [← hab]; exact List.mem_cons_self _ _)

/-- Keep-first semantics: a kept row whose key occurs among the keys of the
front part of the input is itself a row of that front part. -/
theorem dedupBySnAux_first_occurrence {α : Type} :
    ∀ (xs : List (TrialRow α)) {seen : List (List Char)} (ys : List (TrialRow α))
      {r : TrialRow α},
      r ∈ dedupBySnAux seen (xs ++ ys) → r.sn ∈ xs.map (fun t => t.sn) →
      r ∈ xs ∨ r.sn ∈ seen := by
  intro xs
  induction xs with
  | nil =>
    intro seen ys r _ hk
    simp at hk
  | cons a xs2 ih =>
    intro seen ys r h hk
    by_cases ha : a.sn ∈ seen
    · simp only [List.cons_append, dedupBySnAux, if_pos ha] at h
      simp only [List.map_cons, List.mem_cons] at hk
      rcases hk with hk | hk
      · right; rw [hk]; exact ha
      · rcases ih ys h hk with h1 | h1
        · exact Or.inl (List.mem_cons_of_mem _ h1)
        · exact Or.inr h1
    · simp only [List.cons_append, dedupBySnAux, if_neg ha, List.mem_cons] at h
      rcases h with h | h
      · left; rw [h]; exact List.mem_cons_self _ _
      · have hnot := dedupBySnAux_sn_not_seen h
        simp only [List.map_cons, List.mem_cons] at hk
        rcases hk with hk | hk
        · exact absurd (by rw [hk]; exact List.mem_cons_self _ _) hnot
        · rcases ih ys h hk with h1 | h1
          · exact Or.inl (List.mem_cons_of_mem _ h1)
          · exact absurd h1 hnot

/-- Deduplication never loses a key that was not already seen. -/
theorem dedupBySnAux_key_mem {α : Type} :
    ∀ {l : List (TrialRow α)} {seen : List (List Char)} {k : List Char},
      k ∈ l.map (fun t => t.sn) → k ∉ seen →
      k ∈ (dedupBySnAux seen l).map (fun t => t.sn) := by
  intro l
  induction l with
  | nil =>
    intro seen k hk _
    simp at hk
  | cons a rs ih =>
    intro seen k hk hks
    simp only [List.map_cons, List.mem_cons] at hk
    by_cases ha : a.sn ∈ seen
    · simp only [dedupBySnAux, if_pos ha]
      rcases hk with hk | hk
      · exact absurd (by rw [hk]; exact ha) hks
      · exact ih hk hks
    · simp only [dedupBySnAux, if_neg ha, List.map_cons, List.mem_cons]
      rcases hk with hk | hk
      · exact Or.inl hk
      · by_cases hka : k = a.sn
        · exact Or.inl hka
        · refine Or.inr (ih hk ?_)
          simp only [List.mem_cons]
          rintro (h | h)
          · exact hka h
          · exact hks h

/-- On a list whose keys are pairwise distinct and unseen, deduplication is
the identity. -/
theorem dedupBySnAux_eq_self {α : Type} :
    ∀ {l : List (TrialRow α)} {seen : List (List Char)},
      l.Pairwise (fun a b => a.sn ≠ b.sn) → (∀ r ∈ l, r.sn ∉ seen) →
      dedupBySnAux seen l = l := by
  intro l
  induction l with
  | nil => intro seen _ _; rfl
  | cons a rs ih =>
    intro seen hp hs
    have ha : a.sn ∉ seen := hs a (List.mem_cons_self _ _)
    rw [List.pairwise_cons] at hp
    simp only [dedupBySnAux, if_neg ha]
    congr 1
    refine ih hp.2 ?_
    intro r hr
    simp only [List.mem_cons]
    rintro (h | h)
    · exact (hp.1 r hr) h.symm
    · exact hs r (List.mem_cons_of_mem _ hr) h

/-- The sort comparison is total. -/
theorem snLe_total {α : Type} (a b : TrialRow α) : snLe a b || snLe b a := by
  unfold snLe
  rcases parseSn a.sn with _ | x <;> rcases parseSn b.sn with _ | y <;> simp <;> omega

/-- The sort comparison is transitive. -/
theorem snLe_trans {α : Type} (a b c : TrialRow α) :
    snLe a b → snLe b c → snLe a c := by
  unfold snLe
  rcases parseSn a.sn with _ | x <;> rcases parseSn b.sn with _ | y <;>
    rcases parseSn c.sn with _ | z <;> simp <;> omega

/-- The merged dataset carries pairwise distinct keys. -/
theorem saveFinalMerge_pairwise_ne {α : Type} (newRows oldRows : List (TrialRow α)) :
    (saveFinalMerge newRows oldRows).Pairwise (fun a b => a.sn ≠ b.sn) := by
  unfold saveFinalMerge sortBySn
  exact (dedupBySnAux_pairwise_ne [] _).perm (List.mergeSort_perm _ snLe).symm
    (fun h => Ne.symm h)

/-- The merged dataset is sorted for the sort comparison. -/
theorem saveFinalMerge_pairwise_le {α : Type} (newRows oldRows : List (TrialRow α)) :
    (saveFinalMerge newRows oldRows).Pairwise (fun a b => snLe a b = true) := by
  unfold saveFinalMerge sortBySn
  exact List.sorted_mergeSort (fun a b c => snLe_trans a b c) (fun a b => snLe_total a b) _

/-- The whitespace collapse of _get_text_safe never emits a line break:
every run of whitespace, line breaks included, becomes a single space. -/
theorem collapseWsAux_no_newline :
    ∀ (b : Bool) (s : List Char), '\n' ∉ collapseWsAux b s := by
  intro b s
  induction s generalizing b with
  | nil => simp [collapseWsAux]
  | cons c cs ih =>
    by_cases hc : isPySpace c
    · by_cases hb : b
      · rw [hb]
        simp only [collapseWsAux, hc, if_true]
        exact ih true
      · have hb2 : b = false := by
          cases b
          · rfl
          · exact absurd rfl hb
        rw [hb2]
        simp only [collapseWsAux, hc, if_true, Bool.false_eq_true, if_false, List.mem_cons]
        rintro (h | h)
        · exact absurd h (by decide)
        · exact ih true h
    · have hc2 : isPySpace c = false := by
        cases hcc : isPySpace c
        · rfl
        · exact absurd hcc hc
      simp only [collapseWsAux, hc2, Bool.false_eq_true, if_false, List.mem_cons]
      rintro (h | h)
      · have hnl : isPySpace '\n' = true := by decide
        rw [h, hc2] at hnl
        exact Bool.false_ne_true hnl
      · exact ih false h

/-! The claim theorems. -/

set_option maxRecDepth 200000 in
/-- Claim C1: in the full-backfill policy with year_missing_threshold 10, a
fetcher returning None for every identifier of year 2020 and an empty existing
dataset make the walker probe exactly 202000001 through 202000010 in ascending
order and then end the year via the threshold break, with the
consecutive-miss counter equal to 10 at termination. -/
theorem fullBackfill_year2020_allAbsent_probes_and_stop :
    (crawlYearLoop c1Probe noExisting false 10 2020).1.probes
        = [202000001, 202000002, 202000003, 202000004, 202000005,
           202000006, 202000007, 202000008, 202000009, 202000010]
  ∧ (crawlYearLoop c1Probe noExisting false 10 2020).1.consecutiveMissing = 10
  ∧ (crawlYearLoop c1Probe noExisting false 10 2020).2 = YearExit.thresholdStop :=
  ⟨rfl, rfl, rfl⟩

set_option maxRecDepth 8000 in
/-- Claim C2: crawl_incremental with since_sn 202500050, no limit and
max_consecutive_miss 20, against a fetcher with records exactly at
202500051..202500055, returns exactly those 5 records (maximum captured
identifier 202500055) and stops normally after 20 further consecutive
misses. -/
theorem incremental_since202500050_fiveRecords_thenStops :
    (crawlIncremental c2Probe 20 none 202500050 1000).1.rows
        = [202500051, 202500052, 202500053, 202500054, 202500055]
  ∧ (crawlIncremental c2Probe 20 none 202500050 1000).1.misses = 20
  ∧ (crawlIncremental c2Probe 20 none 202500050 1000).2 = IncExit.normal
  ∧ (crawlIncremental c2Probe 20 none 202500050 1000).1.rows.foldr max 0 = 202500055 :=
  ⟨rfl, rfl, rfl, rfl⟩

/-- Claim C3: for a key present in both the new session rows and the persisted
rows, the full-backfill merge keeps a row for that key and any such row is a
freshly scraped one, while the incremental update appends no row with that key
and only ever appends rows after the untouched existing rows. -/
theorem merge_tiebreak_full_overwrites_incremental_preserves {α : Type}
    (newRows oldRows : List (TrialRow α)) (k : List Char)
    (hnew : k ∈ newRows.map (fun t => t.sn)) (hold : k ∈ oldRows.map (fun t => t.sn)) :
    (∀ r ∈ saveFinalMerge newRows oldRows, r.sn = k → r ∈ newRows)
  ∧ (∃ r ∈ saveFinalMerge newRows oldRows, r.sn = k)
  ∧ (∀ r ∈ incNewRows newRows (oldRows.map (fun t => t.sn)), r.sn ≠ k)
  ∧ incUpdate oldRows newRows
      = oldRows ++ incNewRows newRows (oldRows.map (fun t => t.sn)) := by
  refine ⟨?_, ?_, ?_, rfl⟩
  · intro r hr hrk
    have hmem : r ∈ dedupBySn (newRows ++ oldRows) := List.mem_mergeSort.mp hr
    rcases dedupBySnAux_first_occurrence newRows oldRows hmem
        (by rw [hrk]; exact hnew) with h | h
    · exact h
    · simp at h
  · have hk2 : k ∈ (newRows ++ oldRows).map (fun t => t.sn) := by
      rw [List.map_append]
      exact List.mem_append_left _ hnew
    have hk3 := dedupBySnAux_key_mem hk2 (List.not_mem_nil k)
    rcases List.mem_map.mp hk3 with ⟨r, hr, hrk⟩
    exact ⟨r, List.mem_mergeSort.mpr hr, hrk⟩
  · intro r hr hrk
    unfold incNewRows at hr
    have hpred := List.of_mem_filter hr
    simp only [Bool.and_eq_true, Bool.not_eq_true'] at hpred
    have hout : r.sn ∉ oldRows.map (fun t => t.sn) := by
      intro hmem
      have h2 := (List.elem_iff).mpr hmem
      rw [List.contains] at hpred
      rw [hpred.2] at h2
      exact Bool.false_ne_true h2
    exact hout (by rw [hrk]; exact hold)

/-- Witness for claim C3 at key 202500001, present in both concrete row
lists. -/
theorem merge_tiebreak_full_overwrites_incremental_preserves_witness :
    (∀ r ∈ saveFinalMerge c7new c7old, r.sn = "202500001".data → r ∈ c7new)
  ∧ (∃ r ∈ saveFinalMerge c7new c7old, r.sn = "202500001".data)
  ∧ (∀ r ∈ incNewRows c7new (c7old.map (fun t => t.sn)), r.sn ≠ "202500001".data)
  ∧ incUpdate c7old c7new = c7old ++ incNewRows c7new (c7old.map (fun t => t.sn)) :=
  merge_tiebreak_full_overwrites_incremental_preserves c7new c7old ("202500001".data)
    (by decide) (by decide)

/-- Claim C4: the page classifier reports ABSENT (true) exactly when the text
is empty, or at least 2 of the 9 fixed phrases occur in the comma-replaced and
stripped text, or that processed text is longer than 300 characters; in
particular a nonempty text with at most one phrase hit and processed length at
most 300 is classified REAL (false). -/
theorem pageClassifier_absent_iff (text : List Char) :
    (looksGarbagePage text = true ↔
      text = [] ∨ 2 ≤ garbageHits text ∨ 300 < (garbageProcessed text).length)
  ∧ (text ≠ [] → garbageHits text ≤ 1 → (garbageProcessed text).length ≤ 300 →
      looksGarbagePage text = false) := by
  constructor
  · unfold looksGarbagePage
    by_cases h1 : text.isEmpty <;> by_cases h2 : 2 ≤ garbageHits text <;>
      by_cases h3 : 300 < (garbageProcessed text).length <;>
      simp_all [List.isEmpty_iff]
  · intro h1 h2 h3
    unfold looksGarbagePage
    have e1 : text.isEmpty = false := by
      simp [List.isEmpty_iff, h1]
    simp [e1, Nat.not_le.mpr, h2, h3]
    omega

/-- Witness for claim C4: a short clean title is classified REAL. -/
theorem pageClassifier_absent_iff_witness : looksGarbagePage "정상 제목".data = false :=
  (pageClassifier_absent_iff ("정상 제목".data)).2 (by decide) (by decide) (by decide)

set_option maxRecDepth 40000 in
/-- Claim C5 evidence: for a raw title text of length 600 with an embedded
line break, the extraction returns the entire text with the line break
collapsed to a space, not the first line, because _get_text_safe collapses
every whitespace run (line breaks included) to a single space before the
length-500/line-break check of _find_first_text, so that check can never
fire on its output. -/
theorem titleExtraction_longMultiline_keeps_whole_text :
    findFirstText [some c5raw] = List.replicate 300 'a' ++ ' ' :: List.replicate 299 'b'
  ∧ c5raw.length = 600
  ∧ c5raw.contains '\n' = true
  ∧ findFirstText [some c5raw] ≠ pyStrip (firstLineOf c5raw)
  ∧ (∀ raw : List Char, '\n' ∉ getTextSafe raw) := by
  refine ⟨by decide, by decide, by decide, by decide, ?_⟩
  intro raw
  exact collapseWsAux_no_newline false (pyStrip raw)

set_option maxRecDepth 8000 in
/-- Claim C6 evidence: a single table with 35 qualifying rows is capped at 30
entries, but across two containers (29 rows, then 35 rows) the extractor
collects 59 entries, because the per-call cap of _scan_tables is relative to
its start index while only the check between containers is global. -/
theorem institutionCap_violated_across_containers :
    (extractInstitutions [[c6t35]] 30).length = 30
  ∧ (extractInstitutions [[c6t29], [c6t35]] 30).length = 59 :=
  ⟨rfl, rfl⟩

/-- Claim C7: for every pair of inputs, the reconciler merge output has
pairwise distinct keys and is sorted ascending by the numeric key value. -/
theorem mergedDataset_unique_and_sorted {α : Type} (newRows oldRows : List (TrialRow α)) :
    (saveFinalMerge newRows oldRows).Pairwise (fun a b => a.sn ≠ b.sn)
  ∧ (saveFinalMerge newRows oldRows).Pairwise
      (fun a b => ∀ x y, parseSn a.sn = some x → parseSn b.sn = some y → x ≤ y) := by
  refine ⟨saveFinalMerge_pairwise_ne newRows oldRows, ?_⟩
  refine (saveFinalMerge_pairwise_le newRows oldRows).imp ?_
  intro a b hab x y hx hy
  unfold snLe at hab
  rw [hx, hy] at hab
  simpa using hab

/-- Witness for claim C7 on concrete row lists. -/
theorem mergedDataset_unique_and_sorted_witness :
    (saveFinalMerge c7new c7old).Pairwise (fun a b => a.sn ≠ b.sn)
  ∧ (saveFinalMerge c7new c7old).Pairwise
      (fun a b => ∀ x y, parseSn a.sn = some x → parseSn b.sn = some y → x ≤ y) :=
  mergedDataset_unique_and_sorted c7new c7old

/-- Claim C8: the reconciler merge is idempotent: applied to its own output as
sole input (empty persisted side) it returns the same dataset, row for row. -/
theorem reconcilerMerge_idempotent {α : Type} (newRows oldRows : List (TrialRow α)) :
    saveFinalMerge (saveFinalMerge newRows oldRows) [] = saveFinalMerge newRows oldRows := by
  have hne := saveFinalMerge_pairwise_ne newRows oldRows
  have hle := saveFinalMerge_pairwise_le newRows oldRows
  show sortBySn (dedupBySn (saveFinalMerge newRows oldRows ++ [])) = _
  rw [List.append_nil]
  unfold dedupBySn
  rw [dedupBySnAux_eq_self hne (fun r _ => List.not_mem_nil _)]
  unfold sortBySn
  exact List.mergeSort_of_sorted hle

set_option maxRecDepth 8000 in
/-- Claim C9 counterexample: one record is captured at 202500051, the next
probe is interrupted, and the incremental session flushes nothing, so a
captured record is lost on interruption in the incremental variant. -/
theorem incremental_interrupt_discards_captured_rows :
    (crawlIncremental c9Probe 20 none 202500050 30).1.rows = [202500051]
  ∧ (crawlIncremental c9Probe 20 none 202500050 30).2 = IncExit.interrupted
  ∧ (incrementalSession c9Probe 20 none 202500050 30).flushed = [] :=
  ⟨rfl, rfl, rfl⟩

/-- Claim C9 amended: the full-backfill variant flushes every captured record
regardless of how the year loop ended (its finally block calls save_final),
while the incremental variant persists its rows only when the loop ends
normally. -/
theorem partialFlush_full_backfill_only {α : Type} (probe : Nat → Fetch α)
    (existing : Nat → Bool) (refreshActive : Bool) (threshold year : Nat) :
    (∀ r ∈ (crawlYearLoop probe existing refreshActive threshold year).1.allData,
        r ∈ (fullBackfillSession probe existing refreshActive threshold year).flushed)
  ∧ (∀ (probe2 : Nat → Fetch α) (maxMiss : Nat) (limit : Option Nat) (sinceSn fuel : Nat),
        (crawlIncremental probe2 maxMiss limit sinceSn fuel).2 = IncExit.normal →
        (incrementalSession probe2 maxMiss limit sinceSn fuel).flushed
          = (crawlIncremental probe2 maxMiss limit sinceSn fuel).1.rows) := by
  constructor
  · intro r hr
    unfold fullBackfillSession
    have he : ((crawlYearLoop probe existing refreshActive threshold year).1.allData).isEmpty
        = false := by
      rcases hd : (crawlYearLoop probe existing refreshActive threshold year).1.allData with
        _ | ⟨x, xs⟩
      · rw [hd] at hr
        simp at hr
      · rfl
    simp only [he, Bool.false_eq_true, if_false]
    exact hr
  · intro probe2 maxMiss limit sinceSn fuel h
    simp [incrementalSession, h]

set_option maxRecDepth 200000 in
/-- Witness for the amended claim C9: a fetcher with one record then misses,
on both variants. -/
theorem partialFlush_full_backfill_only_witness :
    (7 : Nat) ∈ (fullBackfillSession wFlushProbe noExisting false 10 2020).flushed
  ∧ (incrementalSession wFlushProbe 20 none 202000000 30).flushed
      = (crawlIncremental wFlushProbe 20 none 202000000 30).1.rows :=
  ⟨(partialFlush_full_backfill_only wFlushProbe noExisting false 10 2020).1 7 (by decide),
   (partialFlush_full_backfill_only wFlushProbe noExisting false 10 2020).2 wFlushProbe 20
     none 202000000 30 (by decide)⟩

/-- Claim C10: a full-backfill step whose identifier is already present (with
the year not marked for refresh) is exactly a continue that increments only
the skip counter and the identifier, leaving the consecutive-miss counter, the
success and fail counters, the per-year processed count, the captured records
and the probe log unchanged, and it never consults the fetcher. -/
theorem skipStep_frame {α : Type} (probe probe2 : Nat → Fetch α) (existing : Nat → Bool)
    (threshold : Nat) (s : YState α) (h : existing s.sn = true) :
    yearStep probe existing false threshold s
        = StepOut.next { s with skip := s.skip + 1, sn := s.sn + 1 }
  ∧ yearStep probe existing false threshold s
      = yearStep probe2 existing false threshold s := by
  constructor <;> simp [yearStep, h]

/-- Witness for claim C10 on a concrete mid-crawl state and two distinct
probes. -/
theorem skipStep_frame_witness :
    yearStep wSkipProbe (fun _ => true) false 10 wSkipState
        = StepOut.next { wSkipState with skip := wSkipState.skip + 1, sn := wSkipState.sn + 1 }
  ∧ yearStep wSkipProbe (fun _ => true) false 10 wSkipState
      = yearStep wSkipProbe2 (fun _ => true) false 10 wSkipState :=
  skipStep_frame wSkipProbe wSkipProbe2 (fun _ => true) 10 wSkipState rfl

end Crawl
